import Mathlib

/-!
Verification of the aim-trainer game (src/tutorial.py).

The embedding is shallow and exact: the Python floats that hold a target's
radius only ever take values of the form k * 0.2 with small k, so they are
modelled by rational numbers, and the float literals 0.2 and 30 by the
rationals 1/5 and 30.  Mutation of a Target object in place is modelled by
returning an updated copy; the mutable lists of the main loop are Lean lists.

Python reference (constants at module level of tutorial.py):
  WIDTH, HEIGHT = 1000, 800
  TARGET_PADDING = 30
  LIVES = 3
  TOP_BAR_HEIGHT = 50
and on class Target:
  MAX_SIZE = 30
  GROWTH_RATE = 0.2
-/

def WIDTH : ℚ := 1000
def HEIGHT : ℚ := 800
def TARGET_PADDING : ℚ := 30
def LIVES : ℕ := 3
def TOP_BAR_HEIGHT : ℚ := 50
def MAX_SIZE : ℚ := 30
def GROWTH_RATE : ℚ := 1/5

/-- A target: position, current radius (field `size` as in the source) and
the growth flag.  Mirrors class Target of tutorial.py. -/
structure Target where
  x : ℚ
  y : ℚ
  size : ℚ
  growth : Bool
deriving DecidableEq

/-- Constructor Target.__init__(x, y): radius 0, growing. -/
def Target.init (x y : ℚ) : Target :=
  { x := x, y := y, size := 0, growth := true }

/-- Method Target.update():
  if self.size + self.GROWTH_RATE >= self.MAX_SIZE: self.growth = False
  if self.growth: self.size += self.GROWTH_RATE
  else: self.size -= self.GROWTH_RATE -/
def Target.update (t : Target) : Target :=
  let growth := if MAX_SIZE ≤ t.size + GROWTH_RATE then false else t.growth
  if growth then
    { t with growth := growth, size := t.size + GROWTH_RATE }
  else
    { t with growth := growth, size := t.size - GROWTH_RATE }

/-- Method Target.collide(x, y):
  dis = math.sqrt((self.x - x) ** 2 + (self.y - y) ** 2); return dis <= self.size.
Since the real square root is not computable on ℚ, the embedding uses the
equivalent squared comparison; the theorem for claim C3 below proves that this
Boolean equals the source formula sqrt(dx^2 + dy^2) <= size over the reals. -/
def Target.collide (t : Target) (x y : ℚ) : Bool :=
  decide (0 ≤ t.size ∧ (t.x - x) ^ 2 + (t.y - y) ^ 2 ≤ t.size ^ 2)

/-- State of main() between two iterations of the while loop: the mutable
locals targets, targets_pressed, clicks, misses and elapsed_time, plus a flag
recording whether end_screen has been entered.  end_screen never returns (it
blocks until the process quits), so entering it is a terminal ENDED state. -/
structure GState where
  targets : List Target
  targetsPressed : ℕ
  clicks : ℕ
  misses : ℕ
  elapsedTime : ℚ
  ended : Bool
deriving DecidableEq

/-- Environment input consumed by one iteration of the while loop: the value
time.time() - start_time at this tick, the (x, y) pairs drawn by
random.randint for each TARGET_EVENT in the event queue, the number of
MOUSEBUTTONDOWN events, and pygame.mouse.get_pos(). -/
structure TickInput where
  now : ℚ
  spawns : List (ℚ × ℚ)
  clickEvents : ℕ
  mousePos : ℚ × ℚ
deriving DecidableEq

/-- The body of `for target in targets:` in main().  Python iterates by index
over the list while `targets.remove(target)` mutates it, so the loop is
  i = 0
  while i < len(targets): target = targets[i]; <body>; i += 1
which is equivalent to walking a processed prefix `acc` and a remaining
suffix: updating the current target rewrites it in place; removing the
current target shifts the next element into its index, so that element moves
to the processed prefix without being visited.  The body is
  target.update()
  if target.size <= 0: targets.remove(target); misses += 1
  if click and target.collide(*mouse_pos): targets.remove(target); targets_pressed += 1
the two ifs are independent: when both fire, the second remove does not find
the object (list.remove compares by object identity here) and raises
ValueError, modelled as Except.error. -/
def targetPass (click : Bool) (mx my : ℚ) :
    List Target → List Target → ℕ → ℕ → Except Unit (List Target × ℕ × ℕ)
  | acc, [], misses, hits => Except.ok (acc, misses, hits)
  | acc, t :: rest, misses, hits =>
    let t' := t.update
    if t'.size ≤ 0 then
      if click && t'.collide mx my then
        Except.error ()
      else
        match rest with
        | [] => Except.ok (acc, misses + 1, hits)
        | u :: rest' => targetPass click mx my (acc ++ [u]) rest' (misses + 1) hits
    else
      if click && t'.collide mx my then
        match rest with
        | [] => Except.ok (acc, misses, hits + 1)
        | u :: rest' => targetPass click mx my (acc ++ [u]) rest' misses (hits + 1)
      else
        targetPass click mx my (acc ++ [t']) rest misses hits

/-- One iteration of the while loop in main().  The event loop appends a
fresh Target(x, y) for every TARGET_EVENT and counts MOUSEBUTTONDOWN events
(click becomes True when there is at least one); then every target is
processed by targetPass; finally, if misses >= LIVES, end_screen is entered
and never returns, modelled by the terminal `ended` flag.  Once ended, the
state no longer changes. -/
def tick (s : GState) (i : TickInput) : Except Unit GState :=
  if s.ended then Except.ok s
  else
    let ts0 := s.targets ++ i.spawns.map fun p => Target.init p.1 p.2
    let click := decide (0 < i.clickEvents)
    match targetPass click i.mousePos.1 i.mousePos.2 [] ts0 s.misses s.targetsPressed with
    | Except.error e => Except.error e
    | Except.ok (ts1, misses1, hits1) =>
      Except.ok
        { targets := ts1
          targetsPressed := hits1
          clicks := s.clicks + i.clickEvents
          misses := misses1
          elapsedTime := i.now
          ended := decide (LIVES ≤ misses1) }

/-- State of the locals of main() right before the first loop iteration. -/
def initState : GState :=
  { targets := [], targetsPressed := 0, clicks := 0, misses := 0
    elapsedTime := 0, ended := false }

/-- Runs the while loop of main() over a list of per-tick inputs. -/
def runTicks : GState → List TickInput → Except Unit GState
  | s, [] => Except.ok s
  | s, i :: rest =>
    match tick s i with
    | Except.error e => Except.error e
    | Except.ok s' => runTicks s' rest

/-- The accuracy statistic of end_screen():
  accuracy = round(targets_pressed / clicks * 100, 1)
Python raises ZeroDivisionError when clicks = 0, modelled by none.  The
display rounding to one decimal place is omitted: it maps [0, 100] into
itself and does not affect any claim. -/
def endAccuracy (targetsPressed clicks : ℕ) : Option ℚ :=
  if clicks = 0 then none
  else some ((targetsPressed : ℚ) / (clicks : ℚ) * 100)

/-- Range contract of the two random.randint calls in the TARGET_EVENT
branch of main(): randint(a, b) returns an integer in [a, b] inclusive. -/
def ValidInput (i : TickInput) : Prop :=
  ∀ p ∈ i.spawns,
    TARGET_PADDING ≤ p.1 ∧ p.1 ≤ WIDTH - TARGET_PADDING
    ∧ TARGET_PADDING + TOP_BAR_HEIGHT ≤ p.2 ∧ p.2 ≤ HEIGHT - TARGET_PADDING

/-- The padded play area that spawn centers must lie in. -/
def InPlayArea (t : Target) : Prop :=
  TARGET_PADDING ≤ t.x ∧ t.x ≤ WIDTH - TARGET_PADDING
  ∧ TARGET_PADDING + TOP_BAR_HEIGHT ≤ t.y ∧ t.y ≤ HEIGHT - TARGET_PADDING

/-- Demonstration input: one TARGET_EVENT spawning at (100, 100), no click. -/
def demoInput : TickInput := ⟨0, [(100, 100)], 0, (0, 0)⟩

/-- The state reached after one tick of demoInput from initState. -/
def demoState : GState := ⟨[⟨100, 100, 1/5, true⟩], 0, 0, 0, 0, false⟩

/-- An iteration whose event queue is empty. -/
def emptyInput : TickInput := ⟨0, [], 0, (0, 0)⟩

/-- A shrinking target that expires on its next update. -/
def skipDemoA : Target := ⟨100, 100, 1/5, false⟩

/-- A growing target that sits right after skipDemoA in the collection. -/
def skipDemoB : Target := ⟨500, 500, 5, true⟩

theorem Target.update_flip (t : Target) (h1 : MAX_SIZE ≤ t.size + GROWTH_RATE) :
    t.update = { t with growth := false, size := t.size - GROWTH_RATE } := by
  simp [Target.update, h1]

theorem Target.update_grow (t : Target) (h1 : ¬ MAX_SIZE ≤ t.size + GROWTH_RATE)
    (h2 : t.growth = true) :
    t.update = { t with size := t.size + GROWTH_RATE } := by
  simp [Target.update, h1, h2]

theorem Target.update_shrink (t : Target) (h1 : ¬ MAX_SIZE ≤ t.size + GROWTH_RATE)
    (h2 : t.growth = false) :
    t.update = { t with size := t.size - GROWTH_RATE } := by
  simp [Target.update, h1, h2]

theorem GROWTH_RATE_pos : (0 : ℚ) < GROWTH_RATE := by norm_num [GROWTH_RATE]

theorem Target.update_xy (t : Target) :
    t.update.x = t.x ∧ t.update.y = t.y := by
  by_cases h1 : MAX_SIZE ≤ t.size + GROWTH_RATE
  · rw [t.update_flip h1]
    exact ⟨rfl, rfl⟩
  · cases h2 : t.growth
    · rw [t.update_shrink h1 h2]
      exact ⟨rfl, rfl⟩
    · rw [t.update_grow h1 h2]
      exact ⟨rfl, rfl⟩

theorem Target.update_size_le (t : Target) (h : t.size ≤ MAX_SIZE) :
    t.update.size ≤ MAX_SIZE := by
  have hr := GROWTH_RATE_pos
  by_cases h1 : MAX_SIZE ≤ t.size + GROWTH_RATE
  · rw [t.update_flip h1]
    dsimp only
    linarith
  · cases h2 : t.growth
    · rw [t.update_shrink h1 h2]
      dsimp only
      linarith
    · rw [t.update_grow h1 h2]
      dsimp only
      push_neg at h1
      linarith

theorem targetPass_inv (P : Target → Prop)
    (hP : ∀ t : Target, P t → ¬ t.update.size ≤ 0 → P t.update)
    (click : Bool) (mx my : ℚ) (acc rest : List Target) (m h : ℕ) :
    (∀ t ∈ acc, P t) → (∀ t ∈ rest, P t) →
    ∀ out : List Target × ℕ × ℕ,
      targetPass click mx my acc rest m h = Except.ok out → ∀ t ∈ out.1, P t := by
  induction acc, rest, m, h using targetPass.induct click mx my with
  | case1 acc m h =>
    intro hacc _ out heq t ht
    simp only [targetPass, Except.ok.injEq] at heq
    subst heq
    exact hacc t ht
  | case2 acc t rest misses hits t' h1 h2 =>
    replace h1 : t.update.size ≤ 0 := h1
    replace h2 : (click && t.update.collide mx my) = true := h2
    intro _ _ out heq
    rw [targetPass.eq_def] at heq
    simp [h1, h2] at heq
  | case3 acc t misses hits t' h1 h2 =>
    replace h1 : t.update.size ≤ 0 := h1
    replace h2 : ¬ (click && t.update.collide mx my) = true := h2
    intro hacc _ out heq a ha
    rcases out with ⟨o1, o2, o3⟩
    simp [targetPass, h1, h2] at heq
    obtain ⟨rfl, -, -⟩ := heq
    exact hacc a ha
  | case4 acc t misses hits t' h1 h2 u rest' ih1 =>
    replace h1 : t.update.size ≤ 0 := h1
    replace h2 : ¬ (click && t.update.collide mx my) = true := h2
    intro hacc hrest out heq
    simp [targetPass, h1, h2] at heq
    refine ih1 ?_ ?_ out heq
    · intro a ha
      rcases List.mem_append.mp ha with hmem | hmem
      · exact hacc a hmem
      · have : a = u := by simpa using hmem
        exact hrest a (by simp [this])
    · intro a ha
      exact hrest a (by simp [ha])
  | case5 acc t misses hits t' h1 h2 =>
    replace h1 : ¬ t.update.size ≤ 0 := h1
    replace h2 : (click && t.update.collide mx my) = true := h2
    intro hacc _ out heq a ha
    rcases out with ⟨o1, o2, o3⟩
    simp [targetPass, h1, h2] at heq
    obtain ⟨rfl, -, -⟩ := heq
    exact hacc a ha
  | case6 acc t misses hits t' h1 h2 u rest' ih1 =>
    replace h1 : ¬ t.update.size ≤ 0 := h1
    replace h2 : (click && t.update.collide mx my) = true := h2
    intro hacc hrest out heq
    simp [targetPass, h1, h2] at heq
    refine ih1 ?_ ?_ out heq
    · intro a ha
      rcases List.mem_append.mp ha with hmem | hmem
      · exact hacc a hmem
      · have : a = u := by simpa using hmem
        exact hrest a (by simp [this])
    · intro a ha
      exact hrest a (by simp [ha])
  | case7 acc t rest misses hits t' h1 h2 ih1 =>
    replace h1 : ¬ t.update.size ≤ 0 := h1
    replace h2 : ¬ (click && t.update.collide mx my) = true := h2
    intro hacc hrest out heq
    rw [targetPass.eq_def] at heq
    simp [h1, h2] at heq
    refine ih1 ?_ ?_ out heq
    · intro a ha
      rcases List.mem_append.mp ha with hmem | hmem
      · exact hacc a hmem
      · have : a = t.update := by simpa using hmem
        subst this
        exact hP t (hrest t (by simp)) h1
    · intro a ha
      exact hrest a (by simp [ha])

theorem targetPass_counters (click : Bool) (mx my : ℚ) (acc rest : List Target) (m h : ℕ) :
    ∀ out : List Target × ℕ × ℕ,
      targetPass click mx my acc rest m h = Except.ok out →
      m ≤ out.2.1 ∧ h ≤ out.2.2 := by
  induction acc, rest, m, h using targetPass.induct click mx my with
  | case1 acc m h =>
    intro out heq
    simp only [targetPass, Except.ok.injEq] at heq
    subst heq
    exact ⟨le_refl m, le_refl h⟩
  | case2 acc t rest misses hits t' h1 h2 =>
    replace h1 : t.update.size ≤ 0 := h1
    replace h2 : (click && t.update.collide mx my) = true := h2
    intro out heq
    rw [targetPass.eq_def] at heq
    simp [h1, h2] at heq
  | case3 acc t misses hits t' h1 h2 =>
    replace h1 : t.update.size ≤ 0 := h1
    replace h2 : ¬ (click && t.update.collide mx my) = true := h2
    intro out heq
    rcases out with ⟨o1, o2, o3⟩
    simp [targetPass, h1, h2] at heq
    obtain ⟨-, rfl, rfl⟩ := heq
    exact ⟨Nat.le_succ misses, le_refl hits⟩
  | case4 acc t misses hits t' h1 h2 u rest' ih1 =>
    replace h1 : t.update.size ≤ 0 := h1
    replace h2 : ¬ (click && t.update.collide mx my) = true := h2
    intro out heq
    simp [targetPass, h1, h2] at heq
    have := ih1 out heq
    exact ⟨le_trans (Nat.le_succ misses) this.1, this.2⟩
  | case5 acc t misses hits t' h1 h2 =>
    replace h1 : ¬ t.update.size ≤ 0 := h1
    replace h2 : (click && t.update.collide mx my) = true := h2
    intro out heq
    rcases out with ⟨o1, o2, o3⟩
    simp [targetPass, h1, h2] at heq
    obtain ⟨-, rfl, rfl⟩ := heq
    exact ⟨le_refl misses, Nat.le_succ hits⟩
  | case6 acc t misses hits t' h1 h2 u rest' ih1 =>
    replace h1 : ¬ t.update.size ≤ 0 := h1
    replace h2 : (click && t.update.collide mx my) = true := h2
    intro out heq
    simp [targetPass, h1, h2] at heq
    have := ih1 out heq
    exact ⟨this.1, le_trans (Nat.le_succ hits) this.2⟩
  | case7 acc t rest misses hits t' h1 h2 ih1 =>
    replace h1 : ¬ t.update.size ≤ 0 := h1
    replace h2 : ¬ (click && t.update.collide mx my) = true := h2
    intro out heq
    rw [targetPass.eq_def] at heq
    simp [h1, h2] at heq
    exact ih1 out heq

theorem tick_inv (P : Target → Prop)
    (hP : ∀ t : Target, P t → ¬ t.update.size ≤ 0 → P t.update)
    (s s' : GState) (i : TickInput)
    (hspawn : ∀ p ∈ i.spawns, P (Target.init p.1 p.2))
    (hs : ∀ t ∈ s.targets, P t)
    (h : tick s i = Except.ok s') :
    ∀ t ∈ s'.targets, P t := by
  cases he : s.ended with
  | true =>
    simp [tick, he] at h
    subst h
    exact hs
  | false =>
    simp only [tick, he, Bool.false_eq_true, if_false] at h
    cases htp : targetPass (decide (0 < i.clickEvents)) i.mousePos.1 i.mousePos.2 []
        (s.targets ++ i.spawns.map fun p => Target.init p.1 p.2)
        s.misses s.targetsPressed with
    | error e => simp [htp] at h
    | ok out =>
      rcases out with ⟨ts1, m1, h1⟩
      simp only [htp, Except.ok.injEq] at h
      subst h
      intro t ht
      refine targetPass_inv P hP _ _ _ _ _ _ _ (by simp) ?_ (ts1, m1, h1) htp t ht
      intro a ha
      rcases List.mem_append.mp ha with hmem | hmem
      · exact hs a hmem
      · rcases List.mem_map.mp hmem with ⟨p, hp, rfl⟩
        exact hspawn p hp

theorem runTicks_inv (P : Target → Prop)
    (hP : ∀ t : Target, P t → ¬ t.update.size ≤ 0 → P t.update) :
    ∀ (inputs : List TickInput) (s s' : GState),
      (∀ i ∈ inputs, ∀ p ∈ i.spawns, P (Target.init p.1 p.2)) →
      (∀ t ∈ s.targets, P t) →
      runTicks s inputs = Except.ok s' →
      ∀ t ∈ s'.targets, P t := by
  intro inputs
  induction inputs with
  | nil =>
    intro s s' _ hs h
    simp only [runTicks, Except.ok.injEq] at h
    subst h
    exact hs
  | cons i rest ih =>
    intro s s' hin hs h
    cases htk : tick s i with
    | error e => simp [runTicks, htk] at h
    | ok s1 =>
      simp only [runTicks, htk] at h
      exact ih s1 s' (fun j hj => hin j (by simp [hj]))
        (tick_inv P hP s s1 i (hin i (by simp)) hs htk) h

/-- C6: the growing flag flips from true to false exactly at the first update
where adding the growth rate reaches MAX_SIZE or beyond, and never flips back;
once growing is false every update keeps it false and strictly decreases the
radius (by exactly GROWTH_RATE). -/
theorem growth_flips_once (t : Target) :
    (t.update.growth = false ↔ (t.growth = false ∨ MAX_SIZE ≤ t.size + GROWTH_RATE))
    ∧ (t.growth = false →
        t.update.growth = false ∧ t.update.size = t.size - GROWTH_RATE
        ∧ t.update.size < t.size) := by
  have hr := GROWTH_RATE_pos
  constructor
  · by_cases h1 : MAX_SIZE ≤ t.size + GROWTH_RATE
    · rw [t.update_flip h1]
      simp [h1]
    · cases h2 : t.growth
      · rw [t.update_shrink h1 h2]
        simp [h1, h2]
      · rw [t.update_grow h1 h2]
        simp [h1, h2]
  · intro hfalse
    by_cases h1 : MAX_SIZE ≤ t.size + GROWTH_RATE
    · rw [t.update_flip h1]
      exact ⟨rfl, rfl, by dsimp only; linarith⟩
    · rw [t.update_shrink h1 hfalse]
      exact ⟨hfalse, rfl, by dsimp only; linarith⟩

/-- Witness for C6 at the concrete shrinking target (0, 0, 5, false). -/
theorem growth_flips_once_witness :
    (Target.update ⟨0, 0, 5, false⟩).growth = false
    ∧ (Target.update ⟨0, 0, 5, false⟩).size < (5 : ℚ) := by
  have h := (growth_flips_once ⟨0, 0, 5, false⟩).2 rfl
  exact ⟨h.1, h.2.2⟩

/-- C10: a freshly constructed target (radius 0) collides with the point at
its exact center and with no other point: the hit test is non-strict. -/
theorem fresh_target_collide_center (x y px py : ℚ) :
    (Target.init x y).collide px py = true ↔ (px = x ∧ py = y) := by
  unfold Target.init Target.collide
  simp only [decide_eq_true_eq]
  constructor
  · rintro ⟨-, h⟩
    have hx2 : (0:ℚ) ≤ (x - px) ^ 2 := sq_nonneg _
    have hy2 : (0:ℚ) ≤ (y - py) ^ 2 := sq_nonneg _
    have hx : (x - px) ^ 2 = 0 := by nlinarith
    have hy : (y - py) ^ 2 = 0 := by nlinarith
    have hx0 : x - px = 0 := by
      exact pow_eq_zero_iff (by norm_num) |>.mp hx
    have hy0 : y - py = 0 := by
      exact pow_eq_zero_iff (by norm_num) |>.mp hy
    constructor <;> linarith
  · rintro ⟨hx, hy⟩
    subst hx
    subst hy
    norm_num

/-- C3: collide returns true exactly when the Euclidean distance from the
point to the center of the target, as computed by the source via math.sqrt,
is at most the current radius. -/
theorem collide_iff_euclidean_distance_le (t : Target) (x y : ℚ) :
    t.collide x y = true ↔
      Real.sqrt (((t.x : ℝ) - (x : ℝ)) ^ 2 + ((t.y : ℝ) - (y : ℝ)) ^ 2) ≤ (t.size : ℝ) := by
  unfold Target.collide
  rw [decide_eq_true_eq, Real.sqrt_le_iff]
  constructor
  · rintro ⟨h0, hd⟩
    exact ⟨by exact_mod_cast h0, by exact_mod_cast hd⟩
  · rintro ⟨h0, hd⟩
    exact ⟨by exact_mod_cast h0, by exact_mod_cast hd⟩

/-- C1: along every successful run of the game loop from the initial state,
every target stored in the collection has its radius inside [0, MAX_SIZE]. -/
theorem stored_radius_in_range (inputs : List TickInput) (s' : GState)
    (h : runTicks initState inputs = Except.ok s') :
    ∀ t ∈ s'.targets, 0 ≤ t.size ∧ t.size ≤ MAX_SIZE := by
  refine runTicks_inv (fun t => 0 ≤ t.size ∧ t.size ≤ MAX_SIZE) ?_ inputs initState s' ?_ ?_ h
  · intro t ht hpos
    push_neg at hpos
    exact ⟨le_of_lt hpos, t.update_size_le ht.2⟩
  · intro i _ p _
    constructor
    · norm_num [Target.init]
    · norm_num [Target.init, MAX_SIZE]
  · intro t ht
    simp [initState] at ht

/-- Witness for C1 on the one-tick run that spawns a target at (100, 100). -/
theorem stored_radius_in_range_witness :
    0 ≤ (Target.mk 100 100 (1/5) true).size
    ∧ (Target.mk 100 100 (1/5) true).size ≤ MAX_SIZE :=
  stored_radius_in_range [demoInput] demoState
    (by norm_num [runTicks, tick, targetPass, Target.update, Target.collide, Target.init,
      demoInput, demoState, initState, MAX_SIZE, GROWTH_RATE, LIVES])
    (Target.mk 100 100 (1/5) true) (by simp [demoState])

/-- C2: one iteration of the loop either stays in RUNNING or moves to ENDED,
and it moves to ENDED exactly when the updated miss counter has reached
LIVES; the ENDED state is terminal. -/
theorem loop_two_state_machine (s s' : GState) (i : TickInput)
    (h : tick s i = Except.ok s') :
    (s.ended = true → s' = s)
    ∧ (s.ended = false → (s'.ended = true ↔ LIVES ≤ s'.misses)) := by
  constructor
  · intro he
    simp [tick, he] at h
    exact h.symm
  · intro he
    simp only [tick, he, Bool.false_eq_true, if_false] at h
    cases htp : targetPass (decide (0 < i.clickEvents)) i.mousePos.1 i.mousePos.2 []
        (s.targets ++ i.spawns.map fun p => Target.init p.1 p.2)
        s.misses s.targetsPressed with
    | error e => simp [htp] at h
    | ok out =>
      rcases out with ⟨ts1, m1, h1⟩
      simp only [htp, Except.ok.injEq] at h
      subst h
      simp

/-- Witness for C2 at the first tick from the initial state. -/
theorem loop_two_state_machine_witness :
    (initState.ended = true → demoState = initState)
    ∧ (initState.ended = false → (demoState.ended = true ↔ LIVES ≤ demoState.misses)) :=
  loop_two_state_machine initState demoState demoInput
    (by norm_num [tick, targetPass, Target.update, Target.collide, Target.init,
      demoInput, demoState, initState, MAX_SIZE, GROWTH_RATE, LIVES])

/-- C4 is false of the code: the eviction pass raises ValueError when a
target whose radius reaches exactly 0 is clicked at its exact center (the
two independent ifs both call targets.remove on the same object), and the
end-of-session accuracy division raises ZeroDivisionError when the session
ends with zero clicks. -/
theorem eviction_and_accuracy_failures :
    tick { targets := [⟨100, 100, 1/5, false⟩], targetsPressed := 0, clicks := 0,
           misses := 0, elapsedTime := 0, ended := false }
        { now := 0, spawns := [], clickEvents := 1, mousePos := (100, 100) }
      = Except.error ()
    ∧ endAccuracy 0 0 = none := by
  constructor
  · norm_num [tick, targetPass, Target.update, Target.collide, MAX_SIZE, GROWTH_RATE, LIVES]
  · simp [endAccuracy]

/-- C5 as stated fails at the reachable session end with clicks = hits = 0:
no accuracy value is produced there, the division raises instead. -/
theorem accuracy_undefined_at_zero_clicks :
    ¬ ∃ a : ℚ, endAccuracy 0 0 = some a ∧ 0 ≤ a ∧ a ≤ 100 := by
  simp [endAccuracy]

/-- C5 amended: for every session-end state with clicks >= hits and at least
one click, the accuracy hits/clicks expressed as a percentage is in [0, 100]. -/
theorem accuracy_in_percent_range (hits clicks : ℕ) (h1 : hits ≤ clicks) (h2 : 0 < clicks) :
    ∃ a : ℚ, endAccuracy hits clicks = some a ∧ 0 ≤ a ∧ a ≤ 100 := by
  refine ⟨(hits : ℚ) / (clicks : ℚ) * 100, ?_, ?_, ?_⟩
  · simp [endAccuracy, Nat.pos_iff_ne_zero.mp h2]
  · positivity
  · have hq1 : (hits : ℚ) ≤ (clicks : ℚ) := by exact_mod_cast h1
    have hq2 : (0 : ℚ) < (clicks : ℚ) := by exact_mod_cast h2
    have hdiv : (hits : ℚ) / (clicks : ℚ) ≤ 1 := by
      rw [div_le_one hq2]
      exact hq1
    linarith

/-- Witness for the amended C5 at hits = 1, clicks = 2. -/
theorem accuracy_in_percent_range_witness :
    (1 : ℕ) ≤ 2 ∧ (0 : ℕ) < 2
    ∧ ∃ a : ℚ, endAccuracy 1 2 = some a ∧ 0 ≤ a ∧ a ≤ 100 :=
  ⟨by norm_num, by norm_num, accuracy_in_percent_range 1 2 (by norm_num) (by norm_num)⟩

/-- C7 is false of the code: when skipDemoA expires and is evicted, the
iteration index moves past skipDemoB, which therefore is not updated on this
tick even though it was present at the start of the tick (its update would
have changed it). -/
theorem eviction_skips_next_target :
    tick { targets := [skipDemoA, skipDemoB], targetsPressed := 0, clicks := 0,
           misses := 0, elapsedTime := 0, ended := false } emptyInput
      = Except.ok { targets := [skipDemoB], targetsPressed := 0, clicks := 0,
                    misses := 1, elapsedTime := 0, ended := false }
    ∧ skipDemoB.update ≠ skipDemoB := by
  constructor
  · norm_num [tick, targetPass, Target.update, Target.collide, skipDemoA, skipDemoB,
      emptyInput, MAX_SIZE, GROWTH_RATE, LIVES]
  · intro hEq
    have hsz := congrArg Target.size hEq
    norm_num [Target.update, skipDemoB, MAX_SIZE, GROWTH_RATE] at hsz

/-- C8: no loop iteration decreases the hit, click or miss counters, and the
elapsed time does not decrease as long as the wall clock read does not run
backwards. -/
theorem session_counters_monotone (s s' : GState) (i : TickInput)
    (h : tick s i = Except.ok s') :
    s.targetsPressed ≤ s'.targetsPressed ∧ s.clicks ≤ s'.clicks
    ∧ s.misses ≤ s'.misses
    ∧ (s.elapsedTime ≤ i.now → s.elapsedTime ≤ s'.elapsedTime) := by
  cases he : s.ended with
  | true =>
    simp [tick, he] at h
    subst h
    exact ⟨le_refl _, le_refl _, le_refl _, fun _ => le_refl _⟩
  | false =>
    simp only [tick, he, Bool.false_eq_true, if_false] at h
    cases htp : targetPass (decide (0 < i.clickEvents)) i.mousePos.1 i.mousePos.2 []
        (s.targets ++ i.spawns.map fun p => Target.init p.1 p.2)
        s.misses s.targetsPressed with
    | error e => simp [htp] at h
    | ok out =>
      rcases out with ⟨ts1, m1, h1⟩
      have hc := targetPass_counters (decide (0 < i.clickEvents)) i.mousePos.1 i.mousePos.2 []
        (s.targets ++ i.spawns.map fun p => Target.init p.1 p.2)
        s.misses s.targetsPressed (ts1, m1, h1) htp
      simp only [htp, Except.ok.injEq] at h
      subst h
      exact ⟨hc.2, Nat.le_add_right _ _, hc.1, fun hle => hle⟩

/-- Witness for C8 at the first tick from the initial state. -/
theorem session_counters_monotone_witness :
    initState.targetsPressed ≤ demoState.targetsPressed
    ∧ initState.clicks ≤ demoState.clicks
    ∧ initState.misses ≤ demoState.misses
    ∧ (initState.elapsedTime ≤ demoInput.now → initState.elapsedTime ≤ demoState.elapsedTime) :=
  session_counters_monotone initState demoState demoInput
    (by norm_num [tick, targetPass, Target.update, Target.collide, Target.init,
      demoInput, demoState, initState, MAX_SIZE, GROWTH_RATE, LIVES])

/-- C9: update never moves a target, and along every successful run whose
spawn coordinates respect the randint ranges, every stored target's center
lies in the padded play area. -/
theorem spawned_targets_in_play_area :
    (∀ t : Target, t.update.x = t.x ∧ t.update.y = t.y)
    ∧ ∀ (inputs : List TickInput) (s' : GState),
        (∀ i ∈ inputs, ValidInput i) →
        runTicks initState inputs = Except.ok s' →
        ∀ t ∈ s'.targets, InPlayArea t := by
  refine ⟨Target.update_xy, ?_⟩
  intro inputs s' hv h
  refine runTicks_inv InPlayArea ?_ inputs initState s' ?_ ?_ h
  · intro t ht _
    rcases t.update_xy with ⟨hx, hy⟩
    unfold InPlayArea at ht ⊢
    rw [hx, hy]
    exact ht
  · intro i hi p hp
    have hvp := hv i hi p hp
    unfold ValidInput at hvp
    unfold InPlayArea Target.init
    exact hvp
  · intro t ht
    simp [initState] at ht

/-- Witness for C9 on the one-tick run that spawns a target at (100, 100). -/
theorem spawned_targets_in_play_area_witness :
    InPlayArea (Target.mk 100 100 (1/5) true) :=
  spawned_targets_in_play_area.2 [demoInput] demoState
    (by
      intro i hi
      rw [List.mem_singleton] at hi
      subst hi
      unfold ValidInput demoInput
      intro p hp
      rw [List.mem_singleton] at hp
      subst hp
      norm_num [TARGET_PADDING, WIDTH, HEIGHT, TOP_BAR_HEIGHT])
    (by norm_num [runTicks, tick, targetPass, Target.update, Target.collide, Target.init,
      demoInput, demoState, initState, MAX_SIZE, GROWTH_RATE, LIVES])
    (Target.mk 100 100 (1/5) true) (by simp [demoState])
